import Mathlib

/-!
Verification of the technical-indicator engine
(`src/frontend/utils/technical-indicators.ts`,
`src/frontend/utils/trading-utilities.ts`).

Modelling conventions:
* JavaScript floating-point numbers are modelled by exact rationals `ℚ`;
  the `NaN` sentinel is modelled by `none : Option ℚ`.
* An indicator series `number[]` becomes `List (Option ℚ)`; an input price
  series (which carries no `NaN`) becomes `List ℚ`.
* `period` parameters are natural numbers.  The JavaScript behaviour at
  `period = 0` (every produced entry is `NaN`, because the seed divisions
  are `0 / 0`) is reproduced by an explicit branch, since division by zero
  in `ℚ` would otherwise silently produce `0` instead of `NaN`.
-/

/-- Embedding of `calculateSMA` (technical-indicators.ts lines 18-29).
For each `i < data.length`: `NaN` when `i < period - 1`, otherwise the sum of
`data.slice(i - period + 1, i + 1)` divided by `period`.  The `period = 0`
branch reproduces the JavaScript outcome `0 / 0 = NaN` at every index. -/
def calculateSMA (data : List ℚ) (period : ℕ) : List (Option ℚ) :=
  if period = 0 then List.replicate data.length none
  else
    (List.range data.length).map (fun i =>
      if i < period - 1 then none
      else some (((data.drop (i + 1 - period)).take period).sum / period))

/-- The inner loop of `calculateEMA` (technical-indicators.ts line 49-51):
each output is `(x - prev) * m + prev` where `prev` is the previous output
(seeded with the first SMA value). -/
def emaFrom (m : ℚ) (prev : ℚ) : List ℚ → List ℚ
  | [] => []
  | x :: xs =>
      let v := (x - prev) * m + prev
      v :: emaFrom m v xs

/-- Embedding of `calculateEMA` (technical-indicators.ts lines 34-55).
When the input is shorter than `period` the function pushes one `NaN` per
input element and skips the seeding block, so the result is all-`NaN` of the
input length; the same all-`NaN` shape is what the JavaScript code produces
at `period = 0` (the seed is written to index `-1` and every pushed value is
`NaN`).  Otherwise: `period - 1` leading `NaN`s, the seed
`sum(first period)/period` at index `period - 1`, then the recurrence. -/
def calculateEMA (data : List ℚ) (period : ℕ) : List (Option ℚ) :=
  if period = 0 ∨ data.length < period then
    List.replicate data.length none
  else
    let m : ℚ := 2 / ((period : ℚ) + 1)
    let firstSMA : ℚ := (data.take period).sum / (period : ℚ)
    List.replicate (period - 1) (none : Option ℚ) ++
      some firstSMA :: (emaFrom m firstSMA (data.drop period)).map some

/-- Value pushed by the RSI loop (technical-indicators.ts lines 95-96):
the IEEE evaluation of `100 - (100 / (1 + avgGain / avgLoss))`.  The source
has no explicit branch; the branches here encode JavaScript float semantics
of that single unguarded expression: `avgLoss = 0` makes the ratio `NaN`
(when `avgGain = 0`, since `0/0 = NaN`) or `±Infinity` (propagating to the
value `100` exactly).  For `avgLoss ≠ 0` the arithmetic is exact; the
algorithm only ever reaches this with `avgGain, avgLoss ≥ 0`, so
`1 + avgGain / avgLoss` is never `0` on reachable states. -/
def rsiVal (avgGain avgLoss : ℚ) : Option ℚ :=
  if avgLoss = 0 then
    if avgGain = 0 then none else some 100
  else some (100 - 100 / (1 + avgGain / avgLoss))

/-- The main RSI loop (technical-indicators.ts lines 80-97): one step per
remaining change `c`, Wilder-smoothing the running averages and emitting
`rsiVal` of the new averages. -/
def rsiSteps (period : ℕ) (avgGain avgLoss : ℚ) : List ℚ → List (Option ℚ)
  | [] => []
  | c :: cs =>
      let gain := if c > 0 then c else 0
      let loss := if c > 0 then 0 else -c
      let g := (avgGain * ((period : ℚ) - 1) + gain) / (period : ℚ)
      let l := (avgLoss * ((period : ℚ) - 1) + loss) / (period : ℚ)
      rsiVal g l :: rsiSteps period g l cs

/-- Embedding of `calculateRSI` (technical-indicators.ts lines 60-100).
`changes` is the list of consecutive differences; the seed averages sum the
gains/losses of the first `min(period, length-1)` changes; one leading `NaN`
is always pushed; then one output per change after the first `period`.
The `period = 0` branch reproduces the JavaScript outcome (`0/0` seeds make
every produced value `NaN`). -/
def calculateRSI (data : List ℚ) (period : ℕ) : List (Option ℚ) :=
  if period = 0 then List.replicate (max 1 data.length) none
  else
    let changes := List.zipWith (fun a b => a - b) (data.drop 1) data
    let initial := changes.take period
    let gains : ℚ := (initial.map (fun c => if c > 0 then c else 0)).sum
    let losses : ℚ := (initial.map (fun c => if c > 0 then 0 else -c)).sum
    none :: rsiSteps period (gains / (period : ℚ)) (losses / (period : ℚ))
      (changes.drop period)

/-- Result record of `calculateMACD`. -/
structure MACDResult where
  macd : List (Option ℚ)
  signal : List (Option ℚ)
  histogram : List (Option ℚ)
deriving DecidableEq

/-- The histogram loop of `calculateMACD` (technical-indicators.ts lines
164-177): walk the macd line; a `NaN` macd entry emits `NaN`; a defined macd
entry consumes the signal entry at the running cursor `sIdx` (emitting
`macd - signal`, which is `NaN` when that signal entry is `NaN`) and advances
the cursor, or emits `NaN` without advancing when the cursor is past the end
of the signal series. -/
def histSteps (signal : List (Option ℚ)) : ℕ → List (Option ℚ) → List (Option ℚ)
  | _, [] => []
  | sIdx, none :: ms => none :: histSteps signal sIdx ms
  | sIdx, some m :: ms =>
      match signal.get? sIdx with
      | some sv => (sv.map (fun s => m - s)) :: histSteps signal (sIdx + 1) ms
      | none => none :: histSteps signal sIdx ms

/-- Embedding of `calculateMACD` (technical-indicators.ts lines 142-180):
macd = fastEMA - slowEMA positionwise (`NaN` where either is `NaN`);
signal = EMA of the defined values of the macd line only; histogram via the
cursor loop `histSteps`. -/
def calculateMACD (data : List ℚ) (fastPeriod slowPeriod signalPeriod : ℕ) :
    MACDResult :=
  let fastEMA := calculateEMA data fastPeriod
  let slowEMA := calculateEMA data slowPeriod
  let macd := List.zipWith
    (fun f s =>
      match f, s with
      | some a, some b => some (a - b)
      | _, _ => none)
    fastEMA slowEMA
  let signal := calculateEMA (macd.filterMap id) signalPeriod
  ⟨macd, signal, histSteps signal 0 macd⟩

/-- Number of defined (non-`NaN`) entries among the first `i` entries of a
series: the value of the histogram cursor `signalIndex` when the loop of
`calculateMACD` reaches position `i`. -/
def definedBefore (l : List (Option ℚ)) (i : ℕ) : ℕ :=
  ((l.take i).filterMap id).length

/-- Result record of `calculateBollingerBands`. -/
structure BollingerBands where
  upper : List (Option ℚ)
  middle : List (Option ℚ)
  lower : List (Option ℚ)
deriving DecidableEq

/-- One position of `calculateBollingerBands` (technical-indicators.ts lines
116-134), as the triple (upper, middle, lower).  `Math.sqrt` is passed in as
an abstract function `sqrt : ℚ → ℚ` (exact square roots leave `ℚ`; every
claim proved below holds for an arbitrary interpretation of `sqrt`).
`mean` reads `sma[i]` exactly as the source does; inside this branch
(`i ≥ period - 1`) that entry is always defined, so the `getD 0` default is
never the value used. -/
def bollingerEntry (sqrt : ℚ → ℚ) (data : List ℚ) (period : ℕ) (stdDev : ℚ)
    (i : ℕ) : Option ℚ × Option ℚ × Option ℚ :=
  if i < period - 1 then (none, none, none)
  else
    let mean : ℚ := (((calculateSMA data period).get? i).join).getD 0
    let slice := (data.drop (i + 1 - period)).take period
    let avgSquaredDiff : ℚ :=
      ((slice.map (fun value => (value - mean) ^ 2)).sum) / (period : ℚ)
    let standardDeviation : ℚ := sqrt avgSquaredDiff
    (some (mean + standardDeviation * stdDev), some mean,
      some (mean - standardDeviation * stdDev))

/-- Embedding of `calculateBollingerBands` (technical-indicators.ts lines
105-137).  The `period = 0` branch reproduces the JavaScript outcome: the
mean is `sma[i] = NaN`, so all three pushed values are `NaN` at every index. -/
def calculateBollingerBands (sqrt : ℚ → ℚ) (data : List ℚ) (period : ℕ)
    (stdDev : ℚ) : BollingerBands :=
  if period = 0 then
    ⟨List.replicate data.length none, List.replicate data.length none,
      List.replicate data.length none⟩
  else
    ⟨(List.range data.length).map
        (fun i => (bollingerEntry sqrt data period stdDev i).1),
      (List.range data.length).map
        (fun i => (bollingerEntry sqrt data period stdDev i).2.1),
      (List.range data.length).map
        (fun i => (bollingerEntry sqrt data period stdDev i).2.2)⟩

/-- Signal kind of `analyzeMACDSignal` (trading-utilities.ts line 168). -/
inductive SignalType where
  | bullish
  | bearish
  | neutral
deriving DecidableEq

/-- Result record of `analyzeMACDSignal` (trading-utilities.ts lines
167-171).  `strength` is `Option ℚ` because the source computes
`Math.min(Math.abs(histogram[length-1]) * 10, 100)`, which is `NaN` when the
histogram is empty. -/
structure MACDSignal where
  type : SignalType
  strength : Option ℚ
  description : String
deriving DecidableEq

/-- Embedding of `analyzeMACDSignal` (trading-utilities.ts lines 173-217).
List reads `macdLine[length-1]` etc. are modelled with `getD _ 0`; past the
guard both lines have length ≥ 3, so every such read is in range and the
default is never the value used. -/
def analyzeMACDSignal (macdLine signalLine histogram : List ℚ) : MACDSignal :=
  if macdLine.length < 3 ∨ signalLine.length < 3 then
    ⟨SignalType.neutral, some 0, "Insufficient data"⟩
  else
    let currentMACD := macdLine.getD (macdLine.length - 1) 0
    let currentSignal := signalLine.getD (signalLine.length - 1) 0
    let strength : Option ℚ :=
      (histogram.get? (histogram.length - 1)).map (fun h => min (|h| * 10) 100)
    let previousMACD := macdLine.getD (macdLine.length - 2) 0
    let previousSignal := signalLine.getD (signalLine.length - 2) 0
    if previousMACD ≤ previousSignal ∧ currentSignal < currentMACD then
      ⟨SignalType.bullish, strength, "MACD bullish crossover"⟩
    else if previousSignal ≤ previousMACD ∧ currentMACD < currentSignal then
      ⟨SignalType.bearish, strength, "MACD bearish crossover"⟩
    else
      ⟨SignalType.neutral, some 0, "No clear MACD signal"⟩

/-- The bullish-crossover condition of the spec: previous macd ≤ previous signal
and current macd > current signal (trading-utilities.ts line 194). -/
def bullishCrossover (macdLine signalLine : List ℚ) : Prop :=
  macdLine.getD (macdLine.length - 2) 0 ≤ signalLine.getD (signalLine.length - 2) 0 ∧
    signalLine.getD (signalLine.length - 1) 0 < macdLine.getD (macdLine.length - 1) 0

/-- The bearish-crossover condition of the spec: previous macd ≥ previous signal
and current macd < current signal (trading-utilities.ts line 203). -/
def bearishCrossover (macdLine signalLine : List ℚ) : Prop :=
  signalLine.getD (signalLine.length - 2) 0 ≤ macdLine.getD (macdLine.length - 2) 0 ∧
    macdLine.getD (macdLine.length - 1) 0 < signalLine.getD (signalLine.length - 1) 0

instance (macdLine signalLine : List ℚ) :
    Decidable (bullishCrossover macdLine signalLine) := by
  unfold bullishCrossover; infer_instance

instance (macdLine signalLine : List ℚ) :
    Decidable (bearishCrossover macdLine signalLine) := by
  unfold bearishCrossover; infer_instance

/-! ### Helper lemmas -/

lemma emaFrom_length (m prev : ℚ) (l : List ℚ) :
    (emaFrom m prev l).length = l.length := by
  induction l generalizing prev with
  | nil => rfl
  | cons x xs ih => simp [emaFrom, ih]

lemma emaFrom_getElem_zero (m prev : ℚ) (l : List ℚ) :
    (emaFrom m prev l)[0]? = l[0]?.map (fun x => (x - prev) * m + prev) := by
  cases l with
  | nil => rfl
  | cons x xs => simp [emaFrom]

lemma emaFrom_getElem_succ (l : List ℚ) (m : ℚ) :
    ∀ (prev : ℚ) (i : ℕ) (x y : ℚ), (emaFrom m prev l)[i]? = some x →
      l[i + 1]? = some y →
      (emaFrom m prev l)[i + 1]? = some ((y - x) * m + x) := by
  induction l with
  | nil => intro prev i x y hx _; simp [emaFrom] at hx
  | cons a tl ih =>
      intro prev i x y hx hy
      cases i with
      | zero =>
          simp only [emaFrom, List.getElem?_cons_zero, Option.some.injEq] at hx
          simp only [List.getElem?_cons_succ] at hy
          simp only [emaFrom, List.getElem?_cons_succ]
          rw [emaFrom_getElem_zero, hy, hx]
          rfl
      | succ j =>
          simp only [emaFrom, List.getElem?_cons_succ] at hx hy ⊢
          exact ih _ j x y hx hy

lemma calculateEMA_length (data : List ℚ) (period : ℕ) :
    (calculateEMA data period).length = data.length := by
  unfold calculateEMA
  split
  · simp
  · rename_i h
    push_neg at h
    simp [emaFrom_length]
    omega

lemma calculateSMA_length (data : List ℚ) (period : ℕ) :
    (calculateSMA data period).length = data.length := by
  unfold calculateSMA
  split <;> simp

lemma calculateSMA_getElem (data : List ℚ) (period : ℕ) (hp : 1 ≤ period)
    (i : ℕ) (hi : i < data.length) :
    (calculateSMA data period)[i]? =
      some (if i < period - 1 then none
        else some (((data.drop (i + 1 - period)).take period).sum / period)) := by
  unfold calculateSMA
  rw [if_neg (by omega)]
  rw [List.getElem?_map, List.getElem?_range hi]
  rfl

lemma calculateEMA_eq_append (data : List ℚ) (period : ℕ) (hp : 1 ≤ period)
    (hl : period ≤ data.length) :
    calculateEMA data period =
      List.replicate (period - 1) (none : Option ℚ) ++
        some ((data.take period).sum / (period : ℚ)) ::
          (emaFrom (2 / ((period : ℚ) + 1)) ((data.take period).sum / (period : ℚ))
            (data.drop period)).map some := by
  unfold calculateEMA
  rw [if_neg (by omega)]

lemma calculateEMA_getElem_warmup (data : List ℚ) (period : ℕ)
    (hp : 1 ≤ period) (hl : period ≤ data.length) (i : ℕ) (hi : i < period - 1) :
    (calculateEMA data period)[i]? = some none := by
  rw [calculateEMA_eq_append data period hp hl]
  rw [List.getElem?_append_left (by simpa using hi)]
  simp [hi]

lemma calculateEMA_getElem_seed (data : List ℚ) (period : ℕ)
    (hp : 1 ≤ period) (hl : period ≤ data.length) :
    (calculateEMA data period)[period - 1]? =
      some (some ((data.take period).sum / (period : ℚ))) := by
  rw [calculateEMA_eq_append data period hp hl]
  rw [List.getElem?_append_right (by simp)]
  simp

lemma calculateEMA_getElem_step (data : List ℚ) (period : ℕ)
    (hp : 1 ≤ period) (hl : period ≤ data.length) (i : ℕ) (hip : period ≤ i)
    (hi : i < data.length) :
    ∃ prev x, (calculateEMA data period)[i - 1]? = some (some prev) ∧
      data[i]? = some x ∧
      (calculateEMA data period)[i]? =
        some (some ((x - prev) * (2 / ((period : ℚ) + 1)) + prev)) := by
  rw [calculateEMA_eq_append data period hp hl]
  set m : ℚ := 2 / ((period : ℚ) + 1) with hm
  set seed : ℚ := (data.take period).sum / (period : ℚ) with hseed
  set e : List ℚ := emaFrom m seed (data.drop period) with he
  have hel : e.length = data.length - period := by
    rw [he, emaFrom_length]; simp
  have hx : ∃ x, data[i]? = some x := ⟨_, List.getElem?_eq_getElem hi⟩
  rcases hx with ⟨x, hx⟩
  have hdx : (data.drop period)[i - period]? = some x := by
    rw [List.getElem?_drop]
    rwa [show period + (i - period) = i from by omega]
  rcases Nat.eq_or_lt_of_le hip with hEq | hlt
  · -- i = period : the previous entry is the seed
    refine ⟨seed, x, ?_, hx, ?_⟩
    · rw [List.getElem?_append_right (by simp; omega)]
      simp only [List.length_replicate]
      rw [show i - 1 - (period - 1) = 0 from by omega]
      simp
    · rw [List.getElem?_append_right (by simp; omega)]
      simp only [List.length_replicate]
      rw [show i - (period - 1) = 1 from by omega]
      simp only [List.getElem?_cons_succ, List.getElem?_map]
      have h0 : e[0]? = some ((x - seed) * m + seed) := by
        rw [he, emaFrom_getElem_zero]
        rw [show (data.drop period)[0]? = data[i]? from by
          rw [List.getElem?_drop, show period + 0 = i from by omega]]
        rw [hx]; rfl
      rw [h0]; rfl
  · -- i > period : both entries come from the emaFrom tail
    have hprev : ∃ prev, e[i - period - 1]? = some prev := by
      have h : i - period - 1 < e.length := by omega
      exact ⟨_, List.getElem?_eq_getElem h⟩
    rcases hprev with ⟨prev, hprev⟩
    have hstep : e[i - period]? = some ((x - prev) * m + prev) := by
      rw [he] at hprev ⊢
      have := emaFrom_getElem_succ (data.drop period) m seed (i - period - 1)
        prev x hprev
      rw [show i - period - 1 + 1 = i - period from by omega] at this
      exact this hdx
    refine ⟨prev, x, ?_, hx, ?_⟩
    · rw [List.getElem?_append_right (by simp; omega)]
      simp only [List.length_replicate]
      rw [show i - 1 - (period - 1) = (i - period - 1) + 1 from by omega]
      simp only [List.getElem?_cons_succ, List.getElem?_map]
      rw [hprev]; rfl
    · rw [List.getElem?_append_right (by simp; omega)]
      simp only [List.length_replicate]
      rw [show i - (period - 1) = (i - period) + 1 from by omega]
      simp only [List.getElem?_cons_succ, List.getElem?_map]
      rw [hstep]; rfl

lemma getElem?_getD_eq (l : List ℚ) (n : ℕ) (h : n < l.length) :
    l[n]? = some (l.getD n 0) := by
  rw [List.getD_eq_getElem?_getD, List.getElem?_eq_getElem h]
  rfl

lemma sum_take_eq (l : List ℚ) :
    ∀ n, n ≤ l.length → (l.take n).sum = ∑ k ∈ Finset.range n, l.getD k 0 := by
  intro n
  induction n with
  | zero => intro _; simp
  | succ n ih =>
      intro h
      rw [List.take_succ, List.sum_append, ih (by omega),
        getElem?_getD_eq l n (by omega), Finset.sum_range_succ]
      simp

lemma sum_drop_take_eq (l : List ℚ) (j n : ℕ) (h : j + n ≤ l.length) :
    ((l.drop j).take n).sum = ∑ k ∈ Finset.range n, l.getD (j + k) 0 := by
  rw [sum_take_eq (l.drop j) n (by simp; omega)]
  refine Finset.sum_congr rfl (fun k _ => ?_)
  rw [List.getD_eq_getElem?_getD, List.getD_eq_getElem?_getD,
    List.getElem?_drop]

lemma definedBefore_zero (l : List (Option ℚ)) : definedBefore l 0 = 0 := by
  simp [definedBefore]

lemma definedBefore_cons_none (tl : List (Option ℚ)) (j : ℕ) :
    definedBefore (none :: tl) (j + 1) = definedBefore tl j := by
  simp [definedBefore, List.filterMap_cons]

lemma definedBefore_cons_some (m : ℚ) (tl : List (Option ℚ)) (j : ℕ) :
    definedBefore (some m :: tl) (j + 1) = definedBefore tl j + 1 := by
  simp [definedBefore, List.filterMap_cons]

lemma histSteps_length (sig : List (Option ℚ)) :
    ∀ (ms : List (Option ℚ)) (sIdx : ℕ),
      (histSteps sig sIdx ms).length = ms.length := by
  intro ms
  induction ms with
  | nil => intro _; rfl
  | cons mo tl ih =>
      intro sIdx
      cases mo with
      | none => simp [histSteps, ih]
      | some m =>
          cases hs : sig[sIdx]? with
          | none => simp [histSteps, hs, ih]
          | some sv => simp [histSteps, hs, ih]

/-- Characterization of the histogram loop: position `i` of the output is the
macd entry at `i`, with a defined value `m` replaced by `m - s` where `s` is
the signal entry at the cursor position `sIdx` plus the number of defined
macd entries before `i` (and `none` when that signal entry is missing or
`NaN`). -/
lemma histSteps_getElem (sig : List (Option ℚ)) :
    ∀ (ms : List (Option ℚ)) (sIdx i : ℕ), sIdx ≤ sig.length →
      (histSteps sig sIdx ms)[i]? =
        ms[i]?.map (fun mo => mo.bind (fun m =>
          (sig[sIdx + definedBefore ms i]?).join.map (fun s => m - s))) := by
  intro ms
  induction ms with
  | nil => intro sIdx i _; simp [histSteps]
  | cons mo tl ih =>
      intro sIdx i hsIdx
      cases mo with
      | none =>
          cases i with
          | zero => simp [histSteps, definedBefore_zero]
          | succ j =>
              simp only [histSteps, List.getElem?_cons_succ,
                definedBefore_cons_none]
              exact ih sIdx j hsIdx
      | some m =>
          cases hs : sig[sIdx]? with
          | some sv =>
              have hlt : sIdx < sig.length := by
                exact (List.getElem?_eq_some_iff.mp hs).1
              cases i with
              | zero =>
                  simp only [histSteps, List.get?_eq_getElem?, hs,
                    List.getElem?_cons_zero, definedBefore_zero, Nat.add_zero,
                    Option.map_some]
                  rfl
              | succ j =>
                  simp only [histSteps, List.get?_eq_getElem?, hs,
                    List.getElem?_cons_succ, definedBefore_cons_some]
                  rw [show sIdx + (definedBefore tl j + 1) =
                    (sIdx + 1) + definedBefore tl j from by omega]
                  exact ih (sIdx + 1) j (by omega)
          | none =>
              have hge : sig.length ≤ sIdx := List.getElem?_eq_none_iff.mp hs
              cases i with
              | zero =>
                  simp only [histSteps, List.get?_eq_getElem?, hs,
                    List.getElem?_cons_zero, definedBefore_zero, Nat.add_zero,
                    Option.map_some]
                  rfl
              | succ j =>
                  simp only [histSteps, List.get?_eq_getElem?, hs,
                    List.getElem?_cons_succ, definedBefore_cons_some]
                  rw [ih sIdx j hsIdx]
                  rw [List.getElem?_eq_none (l := sig) (by omega),
                    List.getElem?_eq_none (l := sig) (by omega)]

/-! ### Claims about the signal analyzer -/

/-- C5 (counterexample): with macd = [-1, 1] and signal = [0, 0] — both of
length 2 — `analyzeMACDSignal` returns the insufficient-data guard result,
not a bullish signal of strength 50 as the claim states. -/
theorem analyzeMACDSignal_short_crossover_counterexample :
    analyzeMACDSignal [-1, 1] [0, 0] [5] =
      ⟨SignalType.neutral, some 0, "Insufficient data"⟩ ∧
    (⟨SignalType.neutral, some 0, "Insufficient data"⟩ : MACDSignal) ≠
      ⟨SignalType.bullish, some 50, "MACD bullish crossover"⟩ := by
  constructor
  · norm_num [analyzeMACDSignal]
  · intro h
    cases h

/-- C5 (amended): the crossing scenario of the claim padded to the length-3
minimum the guard requires (macd = [0, -1, 1], signal = [0, 0, 0], histogram
ending in 5) returns bullish with strength min(|5|·10, 100) = 50. -/
theorem analyzeMACDSignal_bullish_example :
    analyzeMACDSignal [0, -1, 1] [0, 0, 0] [0, 0, 5] =
      ⟨SignalType.bullish, some 50, "MACD bullish crossover"⟩ := by
  norm_num [analyzeMACDSignal]

/-- C6: `analyzeMACDSignal` returns exactly
`{neutral, strength 0, "Insufficient data"}` if and only if the macd line or
the signal line has fewer than 3 points. -/
theorem analyzeMACDSignal_insufficient_iff
    (macdLine signalLine histogram : List ℚ) :
    analyzeMACDSignal macdLine signalLine histogram =
      ⟨SignalType.neutral, some 0, "Insufficient data"⟩ ↔
    (macdLine.length < 3 ∨ signalLine.length < 3) := by
  constructor
  · intro hEq
    by_contra hc
    push_neg at hc
    simp only [analyzeMACDSignal] at hEq
    rw [if_neg (by omega)] at hEq
    split at hEq
    · simp_all
    · split at hEq <;> simp_all
  · intro hc
    unfold analyzeMACDSignal
    rw [if_pos hc]

/-- C7: with all three inputs of length ≥ 3, `analyzeMACDSignal` returns
bullish with strength min(|last histogram|·10, 100) exactly under the
bullish-crossover condition, bearish with the same strength formula exactly
under the bearish-crossover condition, neutral with strength 0 otherwise,
and the two crossover conditions are mutually exclusive. -/
theorem analyzeMACDSignal_crossover_cases
    (macdLine signalLine histogram : List ℚ) (hm : 3 ≤ macdLine.length)
    (hs : 3 ≤ signalLine.length) (hh : 3 ≤ histogram.length) :
    (bullishCrossover macdLine signalLine →
      analyzeMACDSignal macdLine signalLine histogram =
        ⟨SignalType.bullish,
          some (min (|histogram.getD (histogram.length - 1) 0| * 10) 100),
          "MACD bullish crossover"⟩) ∧
    (bearishCrossover macdLine signalLine →
      analyzeMACDSignal macdLine signalLine histogram =
        ⟨SignalType.bearish,
          some (min (|histogram.getD (histogram.length - 1) 0| * 10) 100),
          "MACD bearish crossover"⟩) ∧
    (¬bullishCrossover macdLine signalLine →
      ¬bearishCrossover macdLine signalLine →
      analyzeMACDSignal macdLine signalLine histogram =
        ⟨SignalType.neutral, some 0, "No clear MACD signal"⟩) ∧
    ¬(bullishCrossover macdLine signalLine ∧
        bearishCrossover macdLine signalLine) := by
  have hstrength : (histogram.get? (histogram.length - 1)).map
      (fun h => min (|h| * 10) 100) =
      some (min (|histogram.getD (histogram.length - 1) 0| * 10) 100) := by
    rw [List.get?_eq_getElem?, getElem?_getD_eq histogram _ (by omega)]
    rfl
  refine ⟨?_, ?_, ?_, ?_⟩
  · intro hb
    unfold bullishCrossover at hb
    simp only [analyzeMACDSignal]
    rw [if_neg (by omega), if_pos hb, hstrength]
  · intro hb
    unfold bearishCrossover at hb
    by_cases hbull : macdLine.getD (macdLine.length - 2) 0 ≤
        signalLine.getD (signalLine.length - 2) 0 ∧
        signalLine.getD (signalLine.length - 1) 0 <
          macdLine.getD (macdLine.length - 1) 0
    · exfalso
      rcases hb with ⟨h1, h2⟩
      rcases hbull with ⟨h3, h4⟩
      linarith
    · simp only [analyzeMACDSignal]
      rw [if_neg (by omega), if_neg hbull, if_pos hb, hstrength]
  · intro hb hbr
    unfold bullishCrossover at hb
    unfold bearishCrossover at hbr
    simp only [analyzeMACDSignal]
    rw [if_neg (by omega), if_neg hb, if_neg hbr]
  · rintro ⟨⟨h1, h2⟩, ⟨h3, h4⟩⟩
    linarith

/-- C7 witness: a concrete bearish crossover (macd falls through the signal
line) classified through `analyzeMACDSignal_crossover_cases`. -/
theorem analyzeMACDSignal_crossover_cases_witness :
    (3 ≤ ([0, 1, -1] : List ℚ).length ∧ 3 ≤ ([0, 0, 0] : List ℚ).length ∧
      3 ≤ ([0, 0, -2] : List ℚ).length) ∧
    analyzeMACDSignal [0, 1, -1] [0, 0, 0] [0, 0, -2] =
      ⟨SignalType.bearish, some 20, "MACD bearish crossover"⟩ := by
  refine ⟨⟨by norm_num, by norm_num, by norm_num⟩, ?_⟩
  rw [(analyzeMACDSignal_crossover_cases [0, 1, -1] [0, 0, 0] [0, 0, -2]
    (by norm_num) (by norm_num) (by norm_num)).2.1
    (by norm_num [bearishCrossover])]
  norm_num

/-! ### Claims about MACD -/

/-- C1 (counterexample): with data = [1, 2], fast = slow = 1 and
signalPeriod = 2, the macd line is defined at index 0 but the histogram is
`NaN` there (the consumed signal value lies in the warm-up of the signal line),
refuting "histogram[i] is undefined iff macd[i] is undefined". -/
theorem macd_histogram_not_iff_counterexample :
    ¬(((calculateMACD [1, 2] 1 1 2).histogram[0]? = some none) ↔
      ((calculateMACD [1, 2] 1 1 2).macd[0]? = some none)) := by
  have h1 : (calculateMACD [1, 2] 1 1 2).histogram[0]? = some none := by
    norm_num [calculateMACD, calculateEMA, emaFrom, histSteps,
      List.filterMap_cons, List.filterMap_nil]
  have h2 : (calculateMACD [1, 2] 1 1 2).macd[0]? = some (some 0) := by
    norm_num [calculateMACD, calculateEMA, emaFrom,
      List.filterMap_cons, List.filterMap_nil]
  intro hiff
  exact absurd (hiff.mp h1) (by simp [h2])

/-- C1 (amended): the histogram is `NaN` wherever the macd line is `NaN`;
where the macd line is defined with value `m`, the histogram entry consumes
the next unused signal value in sequence — the signal entry at the index
counting the defined macd entries before `i` — and equals `m` minus that
value, which is `NaN` (not defined) exactly while the consumed signal entry
is missing or still in the warm-up of the signal line itself. -/
theorem macd_histogram_alignment (data : List ℚ)
    (fastPeriod slowPeriod signalPeriod : ℕ) :
    (∀ i : ℕ, (calculateMACD data fastPeriod slowPeriod signalPeriod).macd[i]? =
        some none →
      (calculateMACD data fastPeriod slowPeriod signalPeriod).histogram[i]? =
        some none) ∧
    (∀ (i : ℕ) (m : ℚ),
      (calculateMACD data fastPeriod slowPeriod signalPeriod).macd[i]? =
        some (some m) →
      (calculateMACD data fastPeriod slowPeriod signalPeriod).histogram[i]? =
        some ((((calculateMACD data fastPeriod slowPeriod
              signalPeriod).signal[definedBefore
                (calculateMACD data fastPeriod slowPeriod signalPeriod).macd
                i]?).join).map (fun s => m - s))) := by
  have hhist :
      (calculateMACD data fastPeriod slowPeriod signalPeriod).histogram =
        histSteps (calculateMACD data fastPeriod slowPeriod signalPeriod).signal
          0 (calculateMACD data fastPeriod slowPeriod signalPeriod).macd := rfl
  have key := fun i => histSteps_getElem
    (calculateMACD data fastPeriod slowPeriod signalPeriod).signal
    (calculateMACD data fastPeriod slowPeriod signalPeriod).macd 0 i
    (Nat.zero_le _)
  constructor
  · intro i h
    rw [hhist, key i, h]
    rfl
  · intro i m h
    rw [hhist, key i, h, Nat.zero_add]
    rfl

/-- C1 witness: for data = [1, 2, 3] with fast = 1, slow = 2,
signalPeriod = 1, both branches of `macd_histogram_alignment` are exercised:
index 0 has an undefined macd entry and an undefined histogram entry, and
index 1 has macd value 1/2 with the histogram consuming signal entry 0. -/
theorem macd_histogram_alignment_witness :
    ((calculateMACD [1, 2, 3] 1 2 1).macd[0]? = some none ∧
      (calculateMACD [1, 2, 3] 1 2 1).histogram[0]? = some none) ∧
    ((calculateMACD [1, 2, 3] 1 2 1).macd[1]? = some (some (1 / 2)) ∧
      (calculateMACD [1, 2, 3] 1 2 1).histogram[1]? =
        some ((((calculateMACD [1, 2, 3] 1 2 1).signal[definedBefore
            (calculateMACD [1, 2, 3] 1 2 1).macd 1]?).join).map
          (fun s => 1 / 2 - s))) := by
  have h0 : (calculateMACD [1, 2, 3] 1 2 1).macd[0]? = some none := by
    norm_num [calculateMACD, calculateEMA, emaFrom,
      List.filterMap_cons, List.filterMap_nil]
  have h1 : (calculateMACD [1, 2, 3] 1 2 1).macd[1]? = some (some (1 / 2)) := by
    norm_num [calculateMACD, calculateEMA, emaFrom,
      List.filterMap_cons, List.filterMap_nil]
  exact ⟨⟨h0, (macd_histogram_alignment [1, 2, 3] 1 2 1).1 0 h0⟩,
    ⟨h1, (macd_histogram_alignment [1, 2, 3] 1 2 1).2 1 (1 / 2) h1⟩⟩

/-- C2 (counterexample): for data = [1, 2] with fast = 1, slow = 2,
signalPeriod = 1, the returned signal series has length 1, not the input
length 2 — the signal line is an EMA of the compacted (NaN-free) macd line,
so it is shorter than the source series. -/
theorem macd_signal_length_counterexample :
    (calculateMACD [1, 2] 1 2 1).signal.length ≠ ([1, 2] : List ℚ).length := by
  have h : (calculateMACD [1, 2] 1 2 1).signal = [some (1 / 2)] := by
    norm_num [calculateMACD, calculateEMA, emaFrom,
      List.filterMap_cons, List.filterMap_nil]
  rw [h]
  simp

/-- C2 (amended): the macd line and histogram returned by `calculateMACD`
both have the input length; the signal series instead has length equal to
the number of defined (non-NaN) entries of the macd line. -/
theorem macd_lengths (data : List ℚ)
    (fastPeriod slowPeriod signalPeriod : ℕ) :
    (calculateMACD data fastPeriod slowPeriod signalPeriod).macd.length =
      data.length ∧
    (calculateMACD data fastPeriod slowPeriod signalPeriod).histogram.length =
      data.length ∧
    (calculateMACD data fastPeriod slowPeriod signalPeriod).signal.length =
      ((calculateMACD data fastPeriod slowPeriod
        signalPeriod).macd.filterMap id).length := by
  have h1 : (calculateMACD data fastPeriod slowPeriod
      signalPeriod).macd.length = data.length := by
    have hm : (calculateMACD data fastPeriod slowPeriod signalPeriod).macd =
        List.zipWith (fun f s =>
          match f, s with
          | some a, some b => some (a - b)
          | _, _ => none) (calculateEMA data fastPeriod)
          (calculateEMA data slowPeriod) := rfl
    rw [hm, List.length_zipWith, calculateEMA_length, calculateEMA_length,
      Nat.min_self]
  have h2 : (calculateMACD data fastPeriod slowPeriod
      signalPeriod).histogram.length =
      (calculateMACD data fastPeriod slowPeriod signalPeriod).macd.length := by
    have hh : (calculateMACD data fastPeriod slowPeriod
        signalPeriod).histogram =
        histSteps (calculateMACD data fastPeriod slowPeriod
          signalPeriod).signal 0
          (calculateMACD data fastPeriod slowPeriod signalPeriod).macd := rfl
    rw [hh, histSteps_length]
  have h3 : (calculateMACD data fastPeriod slowPeriod
      signalPeriod).signal.length =
      ((calculateMACD data fastPeriod slowPeriod
        signalPeriod).macd.filterMap id).length := by
    have hsg : (calculateMACD data fastPeriod slowPeriod signalPeriod).signal =
        calculateEMA ((calculateMACD data fastPeriod slowPeriod
          signalPeriod).macd.filterMap id) signalPeriod := rfl
    rw [hsg, calculateEMA_length]
  exact ⟨h1, h2.trans h1, h3⟩

/-! ### Claims about RSI -/

lemma rsiSteps_length (period : ℕ) :
    ∀ (cs : List ℚ) (avgGain avgLoss : ℚ),
      (rsiSteps period avgGain avgLoss cs).length = cs.length := by
  intro cs
  induction cs with
  | nil => intro _ _; rfl
  | cons c tl ih => intro g l; simp [rsiSteps, ih]

/-- C3 (counterexample): for data = [1, 2] and period 2 the returned series
has length 1 (the single leading NaN), not `len(s) - p = 0` as the claim
states. -/
theorem rsi_length_counterexample :
    (calculateRSI [1, 2] 2).length = 1 ∧ ([1, 2] : List ℚ).length - 2 = 0 := by
  constructor
  · rfl
  · rfl

/-- C3 (amended): for period ≥ 1 the RSI output length is
`max 1 (len(s) - p)` — the claimed `len(s) - p` exactly when `len(s) > p`,
and a single undefined element otherwise — and the first element is always
the undefined sentinel. -/
theorem rsi_length_spec (data : List ℚ) (period : ℕ) (hp : 1 ≤ period) :
    (calculateRSI data period).length = max 1 (data.length - period) ∧
    (calculateRSI data period)[0]? = some none := by
  unfold calculateRSI
  rw [if_neg (by omega)]
  constructor
  · simp only [List.length_cons, rsiSteps_length, List.length_drop,
      List.length_zipWith, List.length_drop]
    omega
  · exact List.getElem?_cons_zero

/-- C3 witness: for data = [1, 2, 3, 4] and period 1 the output has length
max 1 (4 - 1) = 3 and starts with the undefined sentinel. -/
theorem rsi_length_spec_witness :
    (1 ≤ 1) ∧ (calculateRSI [1, 2, 3, 4] 1).length =
      max 1 (([1, 2, 3, 4] : List ℚ).length - 1) ∧
    (calculateRSI [1, 2, 3, 4] 1)[0]? = some none := by
  refine ⟨le_refl 1, ?_, ?_⟩
  · exact (rsi_length_spec [1, 2, 3, 4] 1 (le_refl 1)).1
  · exact (rsi_length_spec [1, 2, 3, 4] 1 (le_refl 1)).2

/-- C4: on the constant series [5, 5, 5, 5] with period 2, the produced step
has `avgLoss = 0` (and `avgGain = 0`), yet the output is the NaN sentinel,
not 100: the source computes `100 - 100/(1 + avgGain/avgLoss)` with no guard,
which is `0/0 = NaN` here (and relies on IEEE infinity rather than an
explicit branch when `avgGain > 0`).  `rsiVal 0 0 = none` isolates the
guardless division at the zero/zero point. -/
theorem rsi_zero_avgLoss_no_guard :
    calculateRSI [5, 5, 5, 5] 2 = [none, none] ∧
    rsiVal 0 0 = none ∧ (none : Option ℚ) ≠ some 100 := by
  refine ⟨?_, rfl, by simp⟩
  norm_num [calculateRSI, rsiSteps, rsiVal]

/-! ### Claims about SMA and EMA -/

/-- C8: for period ≥ 1, `calculateSMA` keeps the input length; entries at
indices `i < p - 1` are undefined; when the input is long enough every entry
at `i ≥ p - 1` is the arithmetic mean of the trailing window (stated
independently as a sum over indexed reads); and when the input is shorter
than the period the whole series is undefined. -/
theorem sma_spec (data : List ℚ) (period : ℕ) (hp : 1 ≤ period) :
    (calculateSMA data period).length = data.length ∧
    (∀ i : ℕ, i < period - 1 → i < data.length →
      (calculateSMA data period)[i]? = some none) ∧
    (period ≤ data.length → ∀ i : ℕ, period - 1 ≤ i → i < data.length →
      (calculateSMA data period)[i]? =
        some (some ((∑ k ∈ Finset.range period,
          data.getD (i + 1 - period + k) 0) / (period : ℚ)))) ∧
    (data.length < period → ∀ i : ℕ, i < data.length →
      (calculateSMA data period)[i]? = some none) := by
  refine ⟨calculateSMA_length data period, ?_, ?_, ?_⟩
  · intro i h1 h2
    rw [calculateSMA_getElem data period hp i h2, if_pos h1]
  · intro hlen i h1 h2
    rw [calculateSMA_getElem data period hp i h2, if_neg (by omega),
      sum_drop_take_eq data (i + 1 - period) period (by omega)]
  · intro hlen i h2
    rw [calculateSMA_getElem data period hp i h2, if_pos (by omega)]

/-- C8 witness: `sma_spec` applied to data = [1, 2, 3] with period 2;
index 0 is in the warm-up. -/
theorem sma_spec_witness :
    (1 ≤ 2 ∧ 0 < ([1, 2, 3] : List ℚ).length) ∧
    (calculateSMA [1, 2, 3] 2)[0]? = some none :=
  ⟨⟨by norm_num, by norm_num⟩,
    (sma_spec [1, 2, 3] 2 (by norm_num)).2.1 0 (by norm_num) (by norm_num)⟩

/-- C9: for 1 ≤ p ≤ len(s), the EMA entry at `p - 1` equals the SMA entry at
`p - 1` exactly (and is the mean of the first `p` inputs); all earlier
entries are undefined; and each entry at `i ≥ p` is
`prev + 2/(p+1) * (s[i] - prev)` where `prev` is the entry at `i - 1`. -/
theorem ema_spec (data : List ℚ) (period : ℕ) (hp : 1 ≤ period)
    (hl : period ≤ data.length) :
    (calculateEMA data period)[period - 1]? =
      (calculateSMA data period)[period - 1]? ∧
    (calculateEMA data period)[period - 1]? =
      some (some ((data.take period).sum / (period : ℚ))) ∧
    (∀ i : ℕ, i < period - 1 → (calculateEMA data period)[i]? = some none) ∧
    (∀ i : ℕ, period ≤ i → i < data.length →
      ∃ prev x, (calculateEMA data period)[i - 1]? = some (some prev) ∧
        data[i]? = some x ∧
        (calculateEMA data period)[i]? =
          some (some (prev + 2 / ((period : ℚ) + 1) * (x - prev)))) := by
  have hseed := calculateEMA_getElem_seed data period hp hl
  refine ⟨?_, hseed, ?_, ?_⟩
  · rw [hseed, calculateSMA_getElem data period hp (period - 1) (by omega),
      if_neg (by omega),
      show period - 1 + 1 - period = 0 from by omega, List.drop_zero]
  · intro i h
    exact calculateEMA_getElem_warmup data period hp hl i h
  · intro i h1 h2
    obtain ⟨prev, x, ha, hb, hc⟩ :=
      calculateEMA_getElem_step data period hp hl i h1 h2
    refine ⟨prev, x, ha, hb, ?_⟩
    rw [hc]
    congr 2
    ring

/-- C9 witness: `ema_spec` applied to data = [1, 2, 3] with period 2; the
seed entry at index 1 agrees with the SMA entry. -/
theorem ema_spec_witness :
    (1 ≤ 2 ∧ 2 ≤ ([1, 2, 3] : List ℚ).length) ∧
    (calculateEMA [1, 2, 3] 2)[1]? = (calculateSMA [1, 2, 3] 2)[1]? := by
  refine ⟨⟨by norm_num, by norm_num⟩, ?_⟩
  have h := (ema_spec [1, 2, 3] 2 (by norm_num) (by norm_num)).1
  simpa using h

/-! ### Claims about Bollinger Bands -/

lemma sum_map_drop_take_eq (f : ℚ → ℚ) (l : List ℚ) (j n : ℕ)
    (h : j + n ≤ l.length) :
    (((l.drop j).take n).map f).sum =
      ∑ k ∈ Finset.range n, f (l.getD (j + k) 0) := by
  rw [List.map_take, List.map_drop,
    sum_drop_take_eq (l.map f) j n (by simpa using h)]
  refine Finset.sum_congr rfl (fun k hk => ?_)
  have hk2 : j + k < l.length := by
    have := Finset.mem_range.mp hk; omega
  rw [List.getD_eq_getElem?_getD, List.getElem?_map,
    List.getElem?_eq_getElem hk2, List.getD_eq_getElem?_getD,
    List.getElem?_eq_getElem hk2]
  rfl

lemma bollinger_lengths (sqrt : ℚ → ℚ) (data : List ℚ) (period : ℕ)
    (stdDev : ℚ) :
    (calculateBollingerBands sqrt data period stdDev).upper.length =
      data.length ∧
    (calculateBollingerBands sqrt data period stdDev).middle.length =
      data.length ∧
    (calculateBollingerBands sqrt data period stdDev).lower.length =
      data.length := by
  unfold calculateBollingerBands
  split <;> simp

lemma bollinger_getElem (sqrt : ℚ → ℚ) (data : List ℚ) (period : ℕ)
    (stdDev : ℚ) (hp : period ≠ 0) (i : ℕ) (hi : i < data.length) :
    (calculateBollingerBands sqrt data period stdDev).upper[i]? =
      some ((bollingerEntry sqrt data period stdDev i).1) ∧
    (calculateBollingerBands sqrt data period stdDev).middle[i]? =
      some ((bollingerEntry sqrt data period stdDev i).2.1) ∧
    (calculateBollingerBands sqrt data period stdDev).lower[i]? =
      some ((bollingerEntry sqrt data period stdDev i).2.2) := by
  unfold calculateBollingerBands
  rw [if_neg hp]
  refine ⟨?_, ?_, ?_⟩ <;>
    simp [List.getElem?_map, List.getElem?_range hi]

lemma bollinger_mean_eq (data : List ℚ) (period : ℕ) (hp : 1 ≤ period)
    (i : ℕ) (hi : i < data.length) (hip : ¬i < period - 1) :
    (((calculateSMA data period).get? i).join).getD 0 =
      ((data.drop (i + 1 - period)).take period).sum / (period : ℚ) := by
  rw [List.get?_eq_getElem?, calculateSMA_getElem data period hp i hi,
    if_neg hip]
  rfl

lemma bollingerEntry_branch (sqrt : ℚ → ℚ) (data : List ℚ) (period : ℕ)
    (stdDev : ℚ) (hp : 1 ≤ period) (i : ℕ) (hi : i < data.length)
    (hip : ¬i < period - 1) :
    bollingerEntry sqrt data period stdDev i =
      (some (((data.drop (i + 1 - period)).take period).sum / (period : ℚ) +
          sqrt ((((data.drop (i + 1 - period)).take period).map
              (fun value => (value -
                ((data.drop (i + 1 - period)).take period).sum /
                  (period : ℚ)) ^ 2)).sum / (period : ℚ)) * stdDev),
        some (((data.drop (i + 1 - period)).take period).sum / (period : ℚ)),
        some (((data.drop (i + 1 - period)).take period).sum / (period : ℚ) -
          sqrt ((((data.drop (i + 1 - period)).take period).map
              (fun value => (value -
                ((data.drop (i + 1 - period)).take period).sum /
                  (period : ℚ)) ^ 2)).sum / (period : ℚ)) * stdDev)) := by
  simp only [bollingerEntry]
  rw [if_neg hip, bollinger_mean_eq data period hp i hi hip]

/-- C10 (counterexample): at period 0 (with data = [1]) every band entry is
undefined even though no index satisfies `i < period - 1`, refuting the
clause "undefined exactly at indices i < p - 1" of the claim for arbitrary
periods. -/
theorem bollinger_period_zero_counterexample :
    (calculateBollingerBands (fun _ => 0) [1] 0 2).upper[0]? = some none ∧
    (calculateBollingerBands (fun _ => 0) [1] 0 2).middle[0]? = some none ∧
    (calculateBollingerBands (fun _ => 0) [1] 0 2).lower[0]? = some none ∧
    ¬((0 : ℕ) < 0 - 1) := by
  refine ⟨rfl, rfl, rfl, by omega⟩

/-- C10 (amended, for period ≥ 1, with `Math.sqrt` abstracted as an arbitrary
function `sqrt`): the middle band equals `calculateSMA` pointwise; band
symmetry `upper - middle = middle - lower` holds at every defined index; all
three bands are undefined exactly at indices `i < p - 1`; and at every
produced index the upper/lower bands are middle ± `sqrt` of the population
variance (squared deviations summed over the trailing window and divided by
`p`, not `p - 1`) times the multiplier. -/
theorem bollinger_spec (sqrt : ℚ → ℚ) (data : List ℚ) (period : ℕ)
    (stdDev : ℚ) (hp : 1 ≤ period) :
    (calculateBollingerBands sqrt data period stdDev).middle =
      calculateSMA data period ∧
    (∀ (i : ℕ) (u mo lo : ℚ),
      (calculateBollingerBands sqrt data period stdDev).upper[i]? =
        some (some u) →
      (calculateBollingerBands sqrt data period stdDev).middle[i]? =
        some (some mo) →
      (calculateBollingerBands sqrt data period stdDev).lower[i]? =
        some (some lo) →
      u - mo = mo - lo) ∧
    (∀ i : ℕ, i < data.length →
      (((calculateBollingerBands sqrt data period stdDev).upper[i]? =
          some none ∧
        (calculateBollingerBands sqrt data period stdDev).middle[i]? =
          some none ∧
        (calculateBollingerBands sqrt data period stdDev).lower[i]? =
          some none) ↔ i < period - 1)) ∧
    (∀ i : ℕ, period - 1 ≤ i → i < data.length →
      (calculateBollingerBands sqrt data period stdDev).upper[i]? =
        some (some ((∑ k ∈ Finset.range period,
            data.getD (i + 1 - period + k) 0) / (period : ℚ) +
          sqrt ((∑ k ∈ Finset.range period,
              (data.getD (i + 1 - period + k) 0 -
                (∑ j ∈ Finset.range period,
                  data.getD (i + 1 - period + j) 0) / (period : ℚ)) ^ 2) /
            (period : ℚ)) * stdDev)) ∧
      (calculateBollingerBands sqrt data period stdDev).lower[i]? =
        some (some ((∑ k ∈ Finset.range period,
            data.getD (i + 1 - period + k) 0) / (period : ℚ) -
          sqrt ((∑ k ∈ Finset.range period,
              (data.getD (i + 1 - period + k) 0 -
                (∑ j ∈ Finset.range period,
                  data.getD (i + 1 - period + j) 0) / (period : ℚ)) ^ 2) /
            (period : ℚ)) * stdDev))) := by
  have hne : period ≠ 0 := by omega
  refine ⟨?_, ?_, ?_, ?_⟩
  · -- middle band = SMA pointwise
    unfold calculateBollingerBands calculateSMA
    rw [if_neg hne, if_neg hne]
    refine List.map_congr_left (fun i hi => ?_)
    have hi2 : i < data.length := List.mem_range.mp hi
    by_cases hip : i < period - 1
    · simp [bollingerEntry, hip]
    · rw [bollingerEntry_branch sqrt data period stdDev hp i hi2 hip,
        if_neg hip]
  · -- band symmetry at defined indices
    intro i u mo lo hu hmo hlo
    have hi : i < data.length := by
      by_contra hni
      push_neg at hni
      rw [List.getElem?_eq_none (by
        rw [(bollinger_lengths sqrt data period stdDev).1]; omega)] at hu
      exact Option.noConfusion hu
    have hg := bollinger_getElem sqrt data period stdDev hne i hi
    rw [hg.1] at hu
    rw [hg.2.1] at hmo
    rw [hg.2.2] at hlo
    by_cases hip : i < period - 1
    · rw [show bollingerEntry sqrt data period stdDev i =
          ((none : Option ℚ), (none : Option ℚ), (none : Option ℚ)) from by
        simp [bollingerEntry, hip]] at hu
      simp at hu
    · rw [bollingerEntry_branch sqrt data period stdDev hp i hi hip]
        at hu hmo hlo
      simp only [Option.some.injEq] at hu hmo hlo
      rw [← hu, ← hmo, ← hlo]
      ring
  · -- all three bands undefined exactly on the warm-up prefix
    intro i hi
    have hg := bollinger_getElem sqrt data period stdDev hne i hi
    constructor
    · rintro ⟨h1, _, _⟩
      by_contra hip
      rw [hg.1, bollingerEntry_branch sqrt data period stdDev hp i hi hip]
        at h1
      simp at h1
    · intro hip
      refine ⟨?_, ?_, ?_⟩ <;>
        simp [hg.1, hg.2.1, hg.2.2, bollingerEntry, hip]
  · -- upper and lower bands from the population standard deviation
    intro i h1 h2
    have hg := bollinger_getElem sqrt data period stdDev hne i h2
    have hip : ¬i < period - 1 := by omega
    have hwin : i + 1 - period + period ≤ data.length := by omega
    constructor
    · rw [hg.1, bollingerEntry_branch sqrt data period stdDev hp i h2 hip]
      simp only [Option.some.injEq]
      rw [sum_map_drop_take_eq _ data (i + 1 - period) period hwin,
        sum_drop_take_eq data (i + 1 - period) period hwin]
    · rw [hg.2.2, bollingerEntry_branch sqrt data period stdDev hp i h2 hip]
      simp only [Option.some.injEq]
      rw [sum_map_drop_take_eq _ data (i + 1 - period) period hwin,
        sum_drop_take_eq data (i + 1 - period) period hwin]

/-- C10 witness: `bollinger_spec` applied at data = [1, 2, 3], period 2,
multiplier 2, with the abstract square root instantiated by the constant-zero
function. -/
theorem bollinger_spec_witness :
    (1 ≤ 2) ∧
    (calculateBollingerBands (fun _ => 0) [1, 2, 3] 2 2).middle =
      calculateSMA [1, 2, 3] 2 :=
  ⟨by norm_num, (bollinger_spec (fun _ => 0) [1, 2, 3] 2 2 (by norm_num)).1⟩
